import Mathlib

/-!
Verification of the HousingPredictor (Berkeley four-year-plan) backend.

This file shallowly embeds the deterministic plan assembler
(`generate_basic_four_year_plan` in `backend/app.py`), its two backing
catalogs (the fallback sample course table from
`create_sample_course_data` and the major-requirement catalog built by
`load_majors_data`), and the response parsing and fallback
schedule (`_parse_schedule_response` / `_fallback_schedule` in
`backend/rag_pipeline.py`).  Machine integers are modelled as `Int`/`Nat`;
Python dictionaries keyed by strings become association lists in insertion
order; the external `json.loads` call is modelled as an abstract parse
function passed as an argument.
-/

namespace HousingPredictor

/-- A row of the course table (columns of `courses-data.csv` used by the
backend: Subject, Course Number, Department(s), Credits - Units - Minimum
Units, Terms Offered, Course Description). -/
structure Course where
  subject : String
  number : String
  department : String
  units : Nat
  terms : String
  description : String
deriving Repr, DecidableEq

/-- A requirement group of a major (name, list of "SUBJECT NUMBER" course
identifiers, unit count, description), as in `load_majors_data`. -/
structure ReqGroup where
  name : String
  courses : List String
  units : Nat
  description : String
deriving Repr, DecidableEq

/-- The entry of a major in `majors_data`: college, total units and the three
requirement categories in dictionary insertion order
(`lower_division`, `upper_division`, `breadth`). -/
structure MajorInfo where
  college : String
  total_units : Nat
  lower_division : List ReqGroup
  upper_division : List ReqGroup
  breadth : List ReqGroup
deriving Repr, DecidableEq

/-- The `requirements` dictionary of a major in its insertion order. -/
def requirementsList (info : MajorInfo) : List (String × List ReqGroup) :=
  [("lower_division", info.lower_division),
   ("upper_division", info.upper_division),
   ("breadth", info.breadth)]

/-- A course entry placed into a semester by the assembler
(`app.py` lines 684-691). -/
structure PlacedCourse where
  subject : String
  number : String
  title : String
  units : Nat
  requirement_type : String
  requirement_name : String
deriving Repr, DecidableEq

/-- A semester entry of a plan: year, term, placed courses and running
unit total. -/
structure Semester where
  year : Int
  term : String
  courses : List PlacedCourse
  units : Nat
deriving Repr, DecidableEq

/-- The caller-supplied `preferences` dictionary: completed course
identifiers and optional current year (`None` means the key is absent and
the start year `graduation_year - 4` is used). -/
structure Preferences where
  completed_courses : List String := []
  current_year : Option Int := none
deriving Repr, DecidableEq

/-- The plan produced by `generate_basic_four_year_plan`. -/
structure Plan where
  major : String
  college : String
  graduation_year : Int
  graduation_semester : String
  total_units : Nat
  semesters : List Semester
  requirements : List (String × List ReqGroup)
  ai_recommendations : String
deriving Repr, DecidableEq

/-- The sample course table from `create_sample_course_data`
(used when no CSV file is found). -/
def sampleCourses : List Course :=
  [⟨"COMPSCI", "61A", "Computer Science", 4, "Fall, Spring",
     "The Structure and Interpretation of Computer Programs"⟩,
   ⟨"COMPSCI", "61B", "Computer Science", 4, "Fall, Spring", "Data Structures"⟩,
   ⟨"COMPSCI", "61C", "Computer Science", 4, "Fall, Spring",
     "Great Ideas in Computer Architecture (Machine Structures)"⟩,
   ⟨"COMPSCI", "70", "Computer Science", 4, "Fall, Spring",
     "Discrete Mathematics and Probability Theory"⟩,
   ⟨"COMPSCI", "170", "Computer Science", 4, "Fall, Spring",
     "Efficient Algorithms and Intractable Problems"⟩,
   ⟨"COMPSCI", "188", "Computer Science", 4, "Fall, Spring",
     "Introduction to Artificial Intelligence"⟩,
   ⟨"COMPSCI", "189", "Computer Science", 4, "Fall, Spring",
     "Introduction to Machine Learning"⟩,
   ⟨"DATA", "8", "Data Science", 4, "Fall, Spring", "Foundations of Data Science"⟩,
   ⟨"DATA", "100", "Data Science", 4, "Fall, Spring",
     "Principles and Techniques of Data Science"⟩,
   ⟨"DATA", "102", "Data Science", 4, "Fall, Spring", "Data, Inference, and Decisions"⟩,
   ⟨"MATH", "1A", "Mathematics", 4, "Fall, Spring, Summer", "Calculus"⟩,
   ⟨"MATH", "1B", "Mathematics", 4, "Fall, Spring, Summer", "Calculus"⟩,
   ⟨"MATH", "53", "Mathematics", 4, "Fall, Spring", "Multivariable Calculus"⟩,
   ⟨"MATH", "54", "Mathematics", 4, "Fall, Spring",
     "Linear Algebra and Differential Equations"⟩,
   ⟨"EECS", "16A", "Electrical Engineering and Computer Sciences", 4, "Fall, Spring",
     "Designing Information Devices and Systems I"⟩,
   ⟨"EECS", "16B", "Electrical Engineering and Computer Sciences", 4, "Fall, Spring",
     "Designing Information Devices and Systems II"⟩,
   ⟨"PHYSICS", "7A", "Physics", 4, "Fall, Spring", "Physics for Scientists and Engineers"⟩,
   ⟨"PHYSICS", "7B", "Physics", 4, "Fall, Spring", "Physics for Scientists and Engineers"⟩,
   ⟨"ENGLISH", "R1A", "English", 4, "Fall, Spring, Summer", "Reading and Composition"⟩,
   ⟨"ENGLISH", "R1B", "English", 4, "Fall, Spring, Summer", "Reading and Composition"⟩,
   ⟨"STAT", "20", "Statistics", 4, "Fall, Spring",
     "Introduction to Probability and Statistics"⟩,
   ⟨"STAT", "134", "Statistics", 4, "Fall, Spring", "Concepts of Probability"⟩]

/-- Embeds `get_course_info`: exact case-sensitive match of subject and course
number against the course table, first matching row. -/
def get_course_info (catalog : List Course) (subject number : String) : Option Course :=
  catalog.find? (fun c => c.subject == subject && c.number == number)

/-- The hardcoded `all_majors` list of `load_majors_data`, in source order. -/
def all_majors : List String :=
  ["Ancient Greek and Roman Studies", "Art History", "Art Practice", "Celtic Studies",
   "Comparative Literature", "Dutch Studies", "East Asian Languages and Cultures",
   "English", "Film and Media", "French", "German", "Italian Studies",
   "Middle Eastern Languages and Cultures", "Music", "Near Eastern Civilizations",
   "Philosophy", "Rhetoric", "Scandinavian", "Slavic", "South and Southeast Asian Studies",
   "Spanish and Portuguese", "Theater, Dance, and Performance Studies",
   "Integrative Biology", "Molecular and Cell Biology", "Neuroscience", "Public Health",
   "Robinson Life Science, Business, and Entrepreneurship Program",
   "American Studies", "Interdisciplinary Studies", "Legal Studies", "Media Studies",
   "Analytics", "Astrophysics", "Chemistry", "Earth and Planetary Science",
   "Mathematics", "Physics",
   "African American Studies", "Anthropology", "Asian American and Asian Diaspora Studies",
   "Chicano Studies", "Chicanx Latinx Studies", "Cognitive Science", "Economics",
   "Educational Sciences", "Ethnic Studies", "Gender and Women\x27s Studies", "Geography",
   "Global Studies", "History", "Linguistics", "Native American Studies",
   "Political Economy", "Political Science", "Psychology", "Social Welfare", "Sociology",
   "Computer Science", "Data Science", "Statistics",
   "Chemical Biology", "Chemical Engineering",
   "Aerospace Engineering", "Bioengineering", "Civil Engineering",
   "Electrical and Computer Engineering", "Environmental Engineering Sciences",
   "Energy Engineering", "Engineering Mathematics and Statistics", "Engineering Physics",
   "Environmental Engineering Science", "Industrial Engineering and Operations Research",
   "Materials Science and Engineering", "Mechanical Engineering", "Nuclear Engineering",
   "Architecture", "Landscape Architecture", "Sustainable Environmental Design",
   "Urban Studies",
   "Conservation and Resource Studies", "Ecosystem Management and Forestry",
   "Environmental Economics and Policy", "Environmental Sciences",
   "Genetics and Plant Biology",
   "Microbial Biology", "Molecular Environmental Biology", "Nutrition & Metabolic Biology",
   "Society and Environment",
   "Business Administration"]

/-- The college-classification chain of `load_majors_data`
(name-membership lists with "College of Letters and Science" as default). -/
def collegeOf (major : String) : String :=
  if ["Computer Science", "Data Science", "Statistics"].contains major then
    "College of Computing, Data Science, and Society"
  else if ["Chemical Biology", "Chemical Engineering"].contains major then
    "College of Chemistry"
  else if ["Aerospace Engineering", "Bioengineering", "Civil Engineering",
           "Electrical and Computer Engineering", "Environmental Engineering Sciences",
           "Energy Engineering", "Engineering Mathematics and Statistics",
           "Engineering Physics",
           "Environmental Engineering Science",
           "Industrial Engineering and Operations Research",
           "Materials Science and Engineering", "Mechanical Engineering",
           "Nuclear Engineering"].contains major then
    "College of Engineering"
  else if ["Architecture", "Landscape Architecture", "Sustainable Environmental Design",
           "Urban Studies"].contains major then
    "College of Environmental Design"
  else if ["Conservation and Resource Studies", "Ecosystem Management and Forestry",
           "Environmental Economics and Policy", "Environmental Sciences",
           "Genetics and Plant Biology",
           "Microbial Biology", "Molecular Environmental Biology",
           "Nutrition & Metabolic Biology",
           "Society and Environment"].contains major then
    "Rausser College of Natural Resources"
  else if major == "Business Administration" then
    "Haas School of Business"
  else
    "College of Letters and Science"

/-- The synthetic course-identifier stem of the generic skeleton:
`major.upper().replace(" ", "")[:8]`.  Upper-casing is per character,
removing spaces is a filter, and the slice keeps the first 8 characters
(the source strings are ASCII, so Python and Lean agree). -/
def synthStem (major : String) : String :=
  String.mk (((major.toList.map Char.toUpper).filter (fun c => c != ' ')).take 8)

/-- The generic requirement skeleton synthesized for every major by
`load_majors_data` before the detailed overlay. -/
def genericMajor (major : String) : MajorInfo :=
  { college := collegeOf major
    total_units := 120
    lower_division :=
      [⟨"Core Requirements", ["MATH 1A", "ENGLISH R1A"], 8,
        "Core mathematics and composition courses"⟩]
    upper_division :=
      [⟨"Major Requirements", [synthStem major ++ " 100", synthStem major ++ " 101"], 8,
        "Upper division " ++ major ++ " courses"⟩]
    breadth :=
      [⟨"General Education", ["HISTORY 1A", "PHYSICS 7A"], 8, "Breadth requirements"⟩] }

/-- The hand-curated Computer Science entry of `detailed_majors`. -/
def csDetailed : MajorInfo :=
  { college := "College of Computing, Data Science, and Society"
    total_units := 120
    lower_division :=
      [⟨"Programming Fundamentals", ["COMPSCI 61A", "COMPSCI 61B", "COMPSCI 61C"], 12,
        "Core programming and systems courses"⟩,
       ⟨"Discrete Mathematics", ["COMPSCI 70"], 4, "Discrete mathematics and probability"⟩,
       ⟨"Mathematics", ["MATH 1A", "MATH 1B", "MATH 53", "MATH 54"], 16,
        "Calculus and linear algebra sequence"⟩,
       ⟨"Circuits", ["EECS 16A", "EECS 16B"], 8, "Electrical engineering fundamentals"⟩]
    upper_division :=
      [⟨"Core Upper Division", ["COMPSCI 170", "COMPSCI 188", "COMPSCI 189"], 12,
        "Algorithms, AI, and ML courses"⟩]
    breadth :=
      [⟨"Reading and Composition", ["ENGLISH R1A", "ENGLISH R1B"], 8,
        "Writing requirements"⟩] }

/-- The hand-curated Data Science entry of `detailed_majors`. -/
def dsDetailed : MajorInfo :=
  { college := "College of Computing, Data Science, and Society"
    total_units := 120
    lower_division :=
      [⟨"Data Science Foundations", ["DATA 8", "COMPSCI 61A", "COMPSCI 61B"], 12,
        "Foundational programming and data science"⟩,
       ⟨"Mathematics", ["MATH 1A", "MATH 1B", "MATH 53", "MATH 54"], 16,
        "Calculus and linear algebra"⟩,
       ⟨"Statistics", ["STAT 20", "STAT 134"], 8, "Probability and statistics"⟩]
    upper_division :=
      [⟨"Data Science Core", ["DATA 100", "DATA 102"], 8, "Core data science courses"⟩]
    breadth :=
      [⟨"Reading and Composition", ["ENGLISH R1A", "ENGLISH R1B"], 8,
        "Writing requirements"⟩] }

/-- The hand-curated Electrical and Computer Engineering entry of
`detailed_majors`. -/
def eceDetailed : MajorInfo :=
  { college := "College of Engineering"
    total_units := 120
    lower_division :=
      [⟨"Programming", ["COMPSCI 61A", "COMPSCI 61B", "COMPSCI 61C"], 12,
        "Programming fundamentals"⟩,
       ⟨"Circuits and Signals", ["EECS 16A", "EECS 16B"], 8,
        "Circuits and signal processing"⟩,
       ⟨"Mathematics", ["MATH 1A", "MATH 1B", "MATH 53", "MATH 54"], 16,
        "Calculus and linear algebra"⟩,
       ⟨"Physics", ["PHYSICS 7A", "PHYSICS 7B"], 8, "Physics for engineers"⟩]
    upper_division :=
      [⟨"Core Technical", ["COMPSCI 170", "COMPSCI 188"], 8,
        "Upper division technical courses"⟩]
    breadth :=
      [⟨"Reading and Composition", ["ENGLISH R1A", "ENGLISH R1B"], 8,
        "Writing requirements"⟩] }

/-- Dictionary lookup `majors_data[major]` on the association list. -/
def lookupMajor (majors : List (String × MajorInfo)) (name : String) : Option MajorInfo :=
  (majors.find? (fun kv => kv.1 == name)).map (fun kv => kv.2)

/-- The assignment `majors_data[major] = details` of the overlay loop: replaces the value
stored under an existing key, leaves the table unchanged otherwise. -/
def setMajor (majors : List (String × MajorInfo)) (name : String) (info : MajorInfo) :
    List (String × MajorInfo) :=
  if (majors.find? (fun kv => kv.1 == name)).isSome then
    majors.map (fun kv => if kv.1 == name then (kv.1, info) else kv)
  else majors

/-- The generic skeleton table built by the first loop of
`load_majors_data`. -/
def baseMajors : List (String × MajorInfo) :=
  all_majors.map (fun m => (m, genericMajor m))

/-- The full major catalog `majors_data`: the generic skeleton for every
major name, overlaid with the three hand-curated entries. -/
def majors_data : List (String × MajorInfo) :=
  setMajor
    (setMajor
      (setMajor baseMajors "Computer Science" csDetailed)
      "Data Science" dsDetailed)
    "Electrical and Computer Engineering" eceDetailed

/-- A semester freshly created by the semester loop: empty course list,
zero units. -/
def mkSem (year : Int) (term : String) : Semester :=
  { year := year, term := term, courses := [], units := 0 }

/-- The inner per-term loop (over Fall then Spring) of the semester
construction (`app.py` lines 639-657), with the Python `break` rendered as
returning without recursing. -/
def termLoop (year gy : Int) (gsem : String) : List String → List Semester
  | [] => []
  | term :: rest =>
    if year == gy then
      if gsem == "Fall" && term == "Spring" then []
      else if gsem == "Spring" && term == "Fall" then [mkSem year term]
      else mkSem year term :: termLoop year gy gsem rest
    else mkSem year term :: termLoop year gy gsem rest

/-- The Python `range(a, b)` over integers, as a list. -/
def intRange (a b : Int) : List Int :=
  (List.range (b - a).toNat).map (fun i : Nat => a + (i : Int))

/-- The semester sequence built by `generate_basic_four_year_plan`:
`for year in range(current_year, graduation_year + 1)` around the term
loop. -/
def buildSemesters (cy gy : Int) (gsem : String) : List Semester :=
  (intRange cy (gy + 1)).flatMap (fun y => termLoop y gy gsem ["Fall", "Spring"])

/-- Worker for `splitWs`: walk the characters accumulating the current
fragment (reversed); whitespace closes the fragment, and empty fragments
are dropped. -/
def splitWsChars : List Char → List Char → List String
  | [], acc => if acc.isEmpty then [] else [String.mk acc.reverse]
  | c :: rest, acc =>
    if c.isWhitespace then
      if acc.isEmpty then splitWsChars rest []
      else String.mk acc.reverse :: splitWsChars rest []
    else splitWsChars rest (c :: acc)

/-- The Python `str.split()` with no argument: split on whitespace runs and
drop empty fragments. -/
def splitWs (s : String) : List String :=
  splitWsChars s.toList []

/-- Appending a placed course to a semester and adding its units to the
running total (the two mutations of `app.py` lines 684-692). -/
def addPlaced (sem : Semester) (pc : PlacedCourse) : Semester :=
  { sem with courses := sem.courses ++ [pc], units := sem.units + pc.units }

/-- One iteration of the course-placement loop body (`app.py` lines
675-696): skip completed identifiers, skip when the semester pointer ran
off the end, split the identifier, look it up in the course table, place
it into the current semester and advance the pointer once the running
total reaches 16 units. -/
def placeCourse (catalog : List Course) (completed : List String)
    (st : List Semester × Nat) (it : String × String × String) : List Semester × Nat :=
  let sems := st.1
  let idx := st.2
  let course := it.2.2
  if completed.contains course then st
  else if h : idx < sems.length then
    match splitWs course with
    | s :: n :: _ =>
      match get_course_info catalog s n with
      | some info =>
        let sem' : Semester :=
          addPlaced (sems.get ⟨idx, h⟩)
            ⟨info.subject, info.number, info.description, info.units, it.1, it.2.1⟩
        let sems' := sems.set idx sem'
        if 16 ≤ sem'.units then (sems', idx + 1) else (sems', idx)
      | none => st
    | _ => st
  else st

/-- The flattened iteration order of the triple placement loop: categories
in dictionary order, groups in listed order, identifiers in listed order;
each item is (requirement type, requirement name, course identifier). -/
def reqItems (info : MajorInfo) : List (String × String × String) :=
  (requirementsList info).flatMap (fun rt =>
    rt.2.flatMap (fun g => g.courses.map (fun c => (rt.1, g.name, c))))

/-- Embeds `generate_basic_four_year_plan(major, graduation_year, preferences,
graduation_semester)` from `app.py`, parameterized by the course table and
the major catalog it reads from module globals. -/
def generate_basic_four_year_plan (catalog : List Course)
    (majors : List (String × MajorInfo)) (major : String) (graduation_year : Int)
    (prefs : Preferences) (graduation_semester : String) : Option Plan :=
  match lookupMajor majors major with
  | none => none
  | some info =>
    let start_year := graduation_year - 4
    let completed := prefs.completed_courses
    let current_year := prefs.current_year.getD start_year
    let semesters := buildSemesters current_year graduation_year graduation_semester
    let placed := (reqItems info).foldl (placeCourse catalog completed) (semesters, 0)
    some
      { major := major
        college := info.college
        graduation_year := graduation_year
        graduation_semester := graduation_semester
        total_units := info.total_units
        semesters := placed.1
        requirements := requirementsList info
        ai_recommendations :=
          "Basic plan generated. For AI-powered recommendations, ensure GEMINI_API_KEY is configured." }

/-! ### RAG layer: response parsing and fallback schedule
(`backend/rag_pipeline.py`) -/

/-- The Python `str.strip()` on a character list: drop whitespace from both
ends. -/
def stripChars (cs : List Char) : List Char :=
  ((cs.dropWhile Char.isWhitespace).reverse.dropWhile Char.isWhitespace).reverse

/-- The Python `s.startswith(pat)` on character lists. -/
def listStartsWith : List Char → List Char → Bool
  | _, [] => true
  | [], _ :: _ => false
  | a :: as, b :: bs => a == b && listStartsWith as bs

/-- The Python `s.endswith(pat)` on character lists. -/
def listEndsWith (s pat : List Char) : Bool :=
  listStartsWith s.reverse pat.reverse

/-- The Python `s.rfind(c)` as an optional index of the last occurrence. -/
def lastIdx? (cs : List Char) (c : Char) : Option Nat :=
  match cs.reverse.findIdx? (fun x => x == c) with
  | some i => some (cs.length - 1 - i)
  | none => none

/-- The opening curly brace character. -/
def lbraceChar : Char := Char.ofNat 123

/-- The closing curly brace character. -/
def rbraceChar : Char := Char.ofNat 125

/-- The text-extraction half of `_parse_schedule_response`: strip, remove
an optional leading ` ```json ` or ` ``` ` fence and a trailing fence,
strip again, and slice from the first opening brace through the last
closing brace; `none` is the `ValueError` raised when either brace is
missing. -/
def extractJson (response : String) : Option String :=
  let r0 := stripChars response.toList
  let r1 := if listStartsWith r0 "```json".toList then r0.drop 7 else r0
  let r2 := if listStartsWith r1 "```".toList then r1.drop 3 else r1
  let r3 := if listEndsWith r2 "```".toList then r2.take (r2.length - 3) else r2
  let r := stripChars r3
  match r.findIdx? (fun x => x == lbraceChar), lastIdx? r rbraceChar with
  | some s, some e => some (String.mk ((r.drop s).take (e + 1 - s)))
  | _, _ => none

/-- The schedule dictionary returned by `_fallback_schedule`
(it has no `requirements` field, unlike the plan of the deterministic
assembler). -/
structure FallbackPlan where
  major : String
  college : String
  graduation_year : Int
  graduation_semester : String
  total_units : Nat
  semesters : List Semester
  ai_recommendations : String
deriving Repr, DecidableEq

/-- The inner term loop of `_fallback_schedule` (`rag_pipeline.py` lines
363-382): `continue` skips the pre-graduation Spring for Fall graduation,
and the Fall-of-graduation-year branch appends then breaks. -/
def fbTermLoop (year gy : Int) (gsem : String) : List String → List Semester
  | [] => []
  | term :: rest =>
    if year == gy - 1 && term == "Spring" && gsem == "Fall" then
      fbTermLoop year gy gsem rest
    else if year == gy && term == "Fall" && gsem == "Spring" then [mkSem year term]
    else mkSem year term :: fbTermLoop year gy gsem rest

/-- Embeds `_fallback_schedule(major, graduation_year, graduation_semester)`:
an empty-course semester skeleton over
`range(graduation_year - 4, graduation_year)` plus major metadata looked
up with a default. -/
def fallback_schedule (majors : List (String × MajorInfo)) (major : String)
    (gy : Int) (gsem : String) : FallbackPlan :=
  let start_year := gy - 4
  let semesters :=
    (intRange start_year gy).flatMap (fun y => fbTermLoop y gy gsem ["Fall", "Spring"])
  let advisory :=
    "Basic plan generated. For personalized recommendations, please ensure the RAG system is properly configured."
  match lookupMajor majors major with
  | some info => ⟨major, info.college, gy, gsem, info.total_units, semesters, advisory⟩
  | none =>
      ⟨major, "College of Letters and Science", gy, gsem, 120, semesters, advisory⟩

/-- The view of a parsed JSON reply that `_parse_schedule_response`
inspects: its set of top-level keys.  The external `json.loads` is
modelled as an abstract `String → Option JsonObj`. -/
structure JsonObj where
  keys : List String
deriving Repr, DecidableEq

/-- The result of `_parse_schedule_response`: either the parsed model
reply or the internal fallback schedule. -/
inductive ScheduleResult where
  | parsed (obj : JsonObj)
  | fallback (plan : FallbackPlan)
deriving Repr, DecidableEq

/-- Embeds `_parse_schedule_response(response, major, graduation_year,
graduation_semester)`: extract the JSON text, parse it, check the
required keys `major` and `semesters`, and on any failure return
the output of `_fallback_schedule` (the exceptions are caught inside the
function; no error escapes). -/
def parse_schedule_response (majors : List (String × MajorInfo))
    (jsonParse : String → Option JsonObj) (response major : String)
    (gy : Int) (gsem : String) : ScheduleResult :=
  match extractJson response with
  | none => .fallback (fallback_schedule majors major gy gsem)
  | some js =>
    match jsonParse js with
    | none => .fallback (fallback_schedule majors major gy gsem)
    | some obj =>
      if obj.keys.contains "major" then
        if obj.keys.contains "semesters" then .parsed obj
        else .fallback (fallback_schedule majors major gy gsem)
      else .fallback (fallback_schedule majors major gy gsem)

/-! ### Derived observations used to state the claims -/

/-- The "SUBJECT NUMBER" identifier of a placed course. -/
def placedId (c : PlacedCourse) : String :=
  c.subject ++ " " ++ c.number

/-- Total units of a list of placed courses. -/
def unitsSum (cs : List PlacedCourse) : Nat :=
  (cs.map (fun c => c.units)).sum

/-- Every placement into every semester happened while the running unit
total of that semester was still strictly below 16: every proper initial
segment of the course list of each semester sums to fewer than 16 units. -/
def semesterLoadOk (sems : List Semester) : Bool :=
  sems.all (fun sem =>
    (List.range sem.courses.length).all (fun k =>
      decide (unitsSum (sem.courses.take k) < 16)))

/-- No placed course of any semester carries an identifier from the
completed set. -/
def noCompletedPlaced (completed : List String) (sems : List Semester) : Bool :=
  sems.all (fun sem => sem.courses.all (fun c => !(completed.contains (placedId c))))

/-- How many placed-course entries across all semesters carry the given
identifier. -/
def placedOccurrences (sems : List Semester) (ident : String) : Nat :=
  (sems.map (fun sem => sem.courses.countP (fun c => placedId c == ident))).sum

/-- How many semesters contain at least one placed course with the given
identifier. -/
def semestersContaining (sems : List Semester) (ident : String) : Nat :=
  sems.countP (fun sem => sem.courses.any (fun c => placedId c == ident))

/-- A requirement course identifier is canonical when rejoining the first
two whitespace-separated fragments reproduces it exactly (so the placed
placed entry has a "SUBJECT NUMBER" identifier equal to the requirement
string). -/
def canonicalIdent (course : String) : Bool :=
  match splitWs course with
  | s :: n :: _ => s ++ " " ++ n == course
  | _ => true

/-- All requirement identifiers of a major are canonical. -/
def majorItemsCanonical (info : MajorInfo) : Bool :=
  (reqItems info).all (fun it => canonicalIdent it.2.2)

/-- The flattened requirement identifiers of a major contain no
duplicates. -/
def majorItemsNodup (info : MajorInfo) : Bool :=
  decide (((reqItems info).map (fun it => it.2.2)).Nodup)

/-- The placement invariant: unit counters match the placed courses, all
semesters beyond the pointer are untouched, the current semester is below
16 units, and every proper initial segment of the placed
courses of every semester sums to fewer than 16 units. -/
def LoadInv (st : List Semester × Nat) : Prop :=
  (∀ (j : Nat) (hj : j < st.1.length),
      (st.1.get ⟨j, hj⟩).units = unitsSum (st.1.get ⟨j, hj⟩).courses)
  ∧ (∀ (j : Nat) (hj : j < st.1.length), st.2 < j → (st.1.get ⟨j, hj⟩).units = 0)
  ∧ (∀ (hi : st.2 < st.1.length), (st.1.get ⟨st.2, hi⟩).units < 16)
  ∧ (∀ (j : Nat) (hj : j < st.1.length) (k : Nat),
      k < (st.1.get ⟨j, hj⟩).courses.length →
      unitsSum ((st.1.get ⟨j, hj⟩).courses.take k) < 16)

/-- The invariant that no placed course carries a completed identifier. -/
def NoCompletedInv (completed : List String) (st : List Semester × Nat) : Prop :=
  ∀ sem ∈ st.1, ∀ c ∈ sem.courses, completed.contains (placedId c) = false

/-- The concrete checks of C7 on the Computer Science plan for Spring
2028 from 2024 with nothing completed: the first semester contains
`COMPSCI 61A` and `COMPSCI 61B` and no upper-division course, the plan
does place upper-division courses, and in placement order every
lower-division placement precedes every other placement. -/
def csPlanCheck : Bool :=
  match generate_basic_four_year_plan sampleCourses majors_data "Computer Science" 2028
      ⟨[], some 2024⟩ "Spring" with
  | none => false
  | some p =>
    match p.semesters with
    | [] => false
    | s0 :: _ =>
      (s0.courses.map placedId).contains "COMPSCI 61A" &&
      (s0.courses.map placedId).contains "COMPSCI 61B" &&
      s0.courses.all (fun c => c.requirement_type != "upper_division") &&
      (p.semesters.flatMap (fun sem => sem.courses)).any
        (fun c => c.requirement_type == "upper_division") &&
      ((p.semesters.flatMap (fun sem => sem.courses)).dropWhile
        (fun c => c.requirement_type == "lower_division")).all
        (fun c => c.requirement_type != "lower_division")

/-- The (year, term) projection of a semester entry. -/
def semProj (s : Semester) : Int × String :=
  (s.year, s.term)

/-! ### Structural lemmas about one placement step -/

/-- Case analysis of `placeCourse`: either the state is unchanged, or the
current semester (which exists) receives one placed course built from the
split identifier and the course-table row, with the pointer advancing
exactly when the new running total reaches 16. -/
theorem placeCourse_spec (catalog : List Course) (completed : List String)
    (st : List Semester × Nat) (it : String × String × String) :
    placeCourse catalog completed st it = st ∨
      ∃ (h : st.2 < st.1.length) (s n : String) (rest : List String) (info : Course),
        completed.contains it.2.2 = false ∧
        splitWs it.2.2 = s :: n :: rest ∧
        get_course_info catalog s n = some info ∧
        info.subject = s ∧ info.number = n ∧
        placeCourse catalog completed st it =
          (if 16 ≤ (st.1.get ⟨st.2, h⟩).units + info.units then
            (st.1.set st.2
                (addPlaced (st.1.get ⟨st.2, h⟩)
                  ⟨info.subject, info.number, info.description, info.units, it.1, it.2.1⟩),
              st.2 + 1)
          else
            (st.1.set st.2
                (addPlaced (st.1.get ⟨st.2, h⟩)
                  ⟨info.subject, info.number, info.description, info.units, it.1, it.2.1⟩),
              st.2)) := by
  unfold placeCourse
  by_cases hc : completed.contains it.2.2 = true
  · rw [if_pos hc]
    exact Or.inl rfl
  · rw [if_neg hc]
    rw [Bool.not_eq_true] at hc
    by_cases h : st.2 < st.1.length
    · rw [dif_pos h]
      rcases hsp : splitWs it.2.2 with _ | ⟨s, _ | ⟨n, rest⟩⟩
      · exact Or.inl rfl
      · exact Or.inl rfl
      · dsimp only
        rcases hg : get_course_info catalog s n with _ | info
        · exact Or.inl rfl
        · have hpred := List.find?_some hg
          rw [Bool.and_eq_true, beq_iff_eq, beq_iff_eq] at hpred
          exact Or.inr ⟨h, s, n, rest, info, hc, rfl, hg, hpred.1, hpred.2, rfl⟩
    · rw [dif_neg h]
      exact Or.inl rfl

/-- Folding the placement step preserves any invariant preserved by each
single step. -/
theorem foldl_place_inv {P : List Semester × Nat → Prop}
    (catalog : List Course) (completed : List String)
    (items : List (String × String × String))
    (hstep : ∀ st it, it ∈ items → P st → P (placeCourse catalog completed st it))
    (st : List Semester × Nat) (h0 : P st) :
    P (items.foldl (placeCourse catalog completed) st) := by
  induction items generalizing st with
  | nil => exact h0
  | cons a l ih =>
    exact ih (fun st' it hit => hstep st' it (List.mem_cons_of_mem _ hit)) _
      (hstep st a (List.mem_cons_self _ _) h0)

/-- Every semester produced by the inner term loop starts with no courses
and zero units. -/
theorem termLoop_fresh (year gy : Int) (gsem : String) :
    ∀ terms, ∀ sem ∈ termLoop year gy gsem terms, sem.courses = [] ∧ sem.units = 0 := by
  intro terms
  induction terms with
  | nil => intro sem hsem; simp [termLoop] at hsem
  | cons t rest ih =>
    intro sem hsem
    unfold termLoop at hsem
    split at hsem
    · split at hsem
      · simp at hsem
      · split at hsem
        · simp at hsem
          subst hsem; exact ⟨rfl, rfl⟩
        · rcases List.mem_cons.mp hsem with h | h
          · subst h; exact ⟨rfl, rfl⟩
          · exact ih sem h
    · rcases List.mem_cons.mp hsem with h | h
      · subst h; exact ⟨rfl, rfl⟩
      · exact ih sem h

/-- Every semester of the freshly built semester sequence starts with no
courses and zero units. -/
theorem buildSemesters_fresh (cy gy : Int) (gsem : String) :
    ∀ sem ∈ buildSemesters cy gy gsem, sem.courses = [] ∧ sem.units = 0 := by
  intro sem hsem
  rcases List.mem_flatMap.mp hsem with ⟨y, _, hy⟩
  exact termLoop_fresh y gy gsem _ sem hy

/-- Replacing a list element by itself is the identity. -/
theorem set_get_self {α : Type} (l : List α) (i : Nat) (h : i < l.length) :
    l.set i (l.get ⟨i, h⟩) = l := by
  induction l generalizing i with
  | nil => simp at h
  | cons a t ih =>
    cases i with
    | zero => rfl
    | succ j =>
      simp only [List.set_cons_succ, List.get]
      rw [ih j (Nat.lt_of_succ_lt_succ h)]

/-- A placement step never changes the (year, term) projection of the
semester sequence. -/
theorem placeCourse_proj (catalog : List Course) (completed : List String)
    (st : List Semester × Nat) (it : String × String × String) :
    ((placeCourse catalog completed st it).1).map semProj = st.1.map semProj := by
  rcases placeCourse_spec catalog completed st it with heq | ⟨h, s, n, rest, info, _, _, _, _, _, heq⟩
  · rw [heq]
  · have hlen : st.2 < (st.1.map semProj).length := by simpa using h
    have key : (st.1.set st.2 (addPlaced (st.1.get ⟨st.2, h⟩)
        ⟨info.subject, info.number, info.description, info.units, it.1, it.2.1⟩)).map semProj
        = st.1.map semProj := by
      rw [List.map_set]
      have hget : semProj (addPlaced (st.1.get ⟨st.2, h⟩)
          ⟨info.subject, info.number, info.description, info.units, it.1, it.2.1⟩)
          = (st.1.map semProj).get ⟨st.2, hlen⟩ := by
        simp [List.get_eq_getElem, semProj, addPlaced]
      rw [hget, set_get_self]
    rw [heq]
    split
    · exact key
    · exact key

/-! ### The 16-unit load invariant (claim C3) -/

theorem unitsSum_append (l : List PlacedCourse) (pc : PlacedCourse) :
    unitsSum (l ++ [pc]) = unitsSum l + pc.units := by
  simp [unitsSum]

/-- Reading an element of an updated list. -/
theorem get_set_eq_ite {α : Type} (l : List α) (i j : Nat) (a : α)
    (hj : j < (l.set i a).length) :
    (l.set i a).get ⟨j, hj⟩ = if i = j then a else l.get ⟨j, by simpa using hj⟩ := by
  simp [List.get_eq_getElem, List.getElem_set]


/-- One placement step preserves the load invariant. -/
theorem loadInv_place (catalog : List Course) (completed : List String)
    (st : List Semester × Nat) (it : String × String × String)
    (hP : LoadInv st) : LoadInv (placeCourse catalog completed st it) := by
  rcases placeCourse_spec catalog completed st it with heq |
    ⟨h, s, n, rest, info, _, _, _, _, _, heq⟩
  · rw [heq]; exact hP
  · obtain ⟨h1, h2, h3, h4⟩ := hP
    rw [heq]; clear heq
    have hnew : ∀ (hj : st.2 < (st.1.set st.2 (addPlaced (st.1.get ⟨st.2, h⟩)
        ⟨info.subject, info.number, info.description, info.units, it.1, it.2.1⟩)).length),
        (st.1.set st.2 (addPlaced (st.1.get ⟨st.2, h⟩)
          ⟨info.subject, info.number, info.description, info.units, it.1, it.2.1⟩)).get
            ⟨st.2, hj⟩
          = addPlaced (st.1.get ⟨st.2, h⟩)
              ⟨info.subject, info.number, info.description, info.units, it.1, it.2.1⟩ := by
      intro hj
      rw [get_set_eq_ite, if_pos rfl]
    have hold : ∀ (j : Nat) (hne : st.2 ≠ j)
        (hj : j < (st.1.set st.2 (addPlaced (st.1.get ⟨st.2, h⟩)
          ⟨info.subject, info.number, info.description, info.units, it.1, it.2.1⟩)).length),
        (st.1.set st.2 (addPlaced (st.1.get ⟨st.2, h⟩)
          ⟨info.subject, info.number, info.description, info.units, it.1, it.2.1⟩)).get
            ⟨j, hj⟩
          = st.1.get ⟨j, by simpa using hj⟩ := by
      intro j hne hj
      rw [get_set_eq_ite, if_neg hne]
    have haddU : (addPlaced (st.1.get ⟨st.2, h⟩)
        ⟨info.subject, info.number, info.description, info.units, it.1, it.2.1⟩).units
        = (st.1.get ⟨st.2, h⟩).units + info.units := rfl
    have haddC : (addPlaced (st.1.get ⟨st.2, h⟩)
        ⟨info.subject, info.number, info.description, info.units, it.1, it.2.1⟩).courses
        = (st.1.get ⟨st.2, h⟩).courses ++
          [⟨info.subject, info.number, info.description, info.units, it.1, it.2.1⟩] := rfl
    have hsum : ∀ (j : Nat) (hj : j < (st.1.set st.2 (addPlaced (st.1.get ⟨st.2, h⟩)
        ⟨info.subject, info.number, info.description, info.units, it.1, it.2.1⟩)).length),
        ((st.1.set st.2 (addPlaced (st.1.get ⟨st.2, h⟩)
          ⟨info.subject, info.number, info.description, info.units, it.1, it.2.1⟩)).get
            ⟨j, hj⟩).units
          = unitsSum ((st.1.set st.2 (addPlaced (st.1.get ⟨st.2, h⟩)
              ⟨info.subject, info.number, info.description, info.units, it.1, it.2.1⟩)).get
                ⟨j, hj⟩).courses := by
      intro j hj
      by_cases hej : st.2 = j
      · subst hej
        rw [hnew hj, haddU, haddC, unitsSum_append, h1 st.2 h]
      · rw [hold j hej hj]
        exact h1 j _
    have hseg : ∀ (j : Nat) (hj : j < (st.1.set st.2 (addPlaced (st.1.get ⟨st.2, h⟩)
        ⟨info.subject, info.number, info.description, info.units, it.1, it.2.1⟩)).length)
        (k : Nat),
        k < (((st.1.set st.2 (addPlaced (st.1.get ⟨st.2, h⟩)
          ⟨info.subject, info.number, info.description, info.units, it.1, it.2.1⟩)).get
            ⟨j, hj⟩).courses).length →
        unitsSum ((((st.1.set st.2 (addPlaced (st.1.get ⟨st.2, h⟩)
          ⟨info.subject, info.number, info.description, info.units, it.1, it.2.1⟩)).get
            ⟨j, hj⟩).courses).take k) < 16 := by
      intro j hj k hk
      by_cases hej : st.2 = j
      · subst hej
        rw [hnew hj, haddC] at hk ⊢
        simp only [List.length_append, List.length_cons, List.length_nil] at hk
        have hk' : k ≤ (st.1.get ⟨st.2, h⟩).courses.length := by omega
        rw [List.take_append_of_le_length hk']
        rcases Nat.lt_or_ge k (st.1.get ⟨st.2, h⟩).courses.length with hlt | hge
        · exact h4 st.2 h k hlt
        · have hke : k = (st.1.get ⟨st.2, h⟩).courses.length := by omega
          rw [hke, List.take_length]
          rw [← h1 st.2 h]
          exact h3 h
      · rw [hold j hej hj] at hk ⊢
        exact h4 j _ k hk
    split
    · -- the pointer advances past a (now ≥16-unit) semester
      refine ⟨hsum, ?_, ?_, hseg⟩
      · intro j hj hgt
        have hne : st.2 ≠ j := by omega
        rw [hold j hne hj]
        exact h2 j _ (by omega)
      · intro hi
        have hne : st.2 ≠ st.2 + 1 := by omega
        rw [hold (st.2 + 1) hne hi]
        have := h2 (st.2 + 1) (by simpa using hi) (by omega)
        omega
    · -- the semester stays below 16 units and keeps receiving courses
      rename_i h16
      refine ⟨hsum, ?_, ?_, hseg⟩
      · intro j hj hgt
        have hne : st.2 ≠ j := by omega
        rw [hold j hne hj]
        exact h2 j _ hgt
      · intro hi
        rw [hnew hi, haddU]
        omega

/-- The freshly built semester sequence satisfies the load invariant with
the pointer at 0. -/
theorem loadInv_init (cy gy : Int) (gsem : String) :
    LoadInv (buildSemesters cy gy gsem, 0) := by
  have hfresh := buildSemesters_fresh cy gy gsem
  refine ⟨?_, ?_, ?_, ?_⟩
  · intro j hj
    obtain ⟨hc, hu⟩ := hfresh _ (List.get_mem _ _ _)
    rw [hc, hu]; rfl
  · intro j hj _
    exact (hfresh _ (List.get_mem _ _ _)).2
  · intro hi
    rw [(hfresh _ (List.get_mem _ _ _)).2]
    omega
  · intro j hj k hk
    rw [(hfresh _ (List.get_mem _ _ _)).1] at hk
    simp at hk

/-- The load invariant implies the Boolean per-semester check. -/
theorem semesterLoadOk_of_inv (st : List Semester × Nat) (hinv : LoadInv st) :
    semesterLoadOk st.1 = true := by
  obtain ⟨h1, h2, h3, h4⟩ := hinv
  rw [semesterLoadOk, List.all_eq_true]
  intro sem hsem
  rw [List.all_eq_true]
  intro k hk
  rw [List.mem_range] at hk
  rw [decide_eq_true_eq]
  rcases List.mem_iff_get.mp hsem with ⟨⟨j, hj⟩, hget⟩
  rw [← hget] at hk ⊢
  exact h4 j hj k hk

/-! ### Unfolding the assembler -/

/-- When the major is present, the assembler returns exactly the record
built from the placement fold over the fresh semester sequence. -/
theorem generate_eq_some (catalog : List Course) (majors : List (String × MajorInfo))
    (major : String) (gy : Int) (prefs : Preferences) (gsem : String) (info : MajorInfo)
    (hm : lookupMajor majors major = some info) :
    generate_basic_four_year_plan catalog majors major gy prefs gsem =
      some
        { major := major
          college := info.college
          graduation_year := gy
          graduation_semester := gsem
          total_units := info.total_units
          semesters :=
            ((reqItems info).foldl (placeCourse catalog prefs.completed_courses)
              (buildSemesters (prefs.current_year.getD (gy - 4)) gy gsem, 0)).1
          requirements := requirementsList info
          ai_recommendations :=
            "Basic plan generated. For AI-powered recommendations, ensure GEMINI_API_KEY is configured." } := by
  unfold generate_basic_four_year_plan
  rw [hm]

/-- When the major is absent, the assembler returns `None`. -/
theorem generate_eq_none (catalog : List Course) (majors : List (String × MajorInfo))
    (major : String) (gy : Int) (prefs : Preferences) (gsem : String)
    (hm : lookupMajor majors major = none) :
    generate_basic_four_year_plan catalog majors major gy prefs gsem = none := by
  unfold generate_basic_four_year_plan
  rw [hm]

/-! ### Catalog-wide facts established by evaluation -/

/-- Every requirement identifier of every major in the catalog is
canonical ("SUBJECT NUMBER" with a single space). -/
theorem majors_data_canonical :
    majors_data.all (fun kv => majorItemsCanonical kv.2) = true := by decide

/-- No major in the catalog lists the same requirement identifier twice
across its requirement groups. -/
theorem majors_data_nodup :
    majors_data.all (fun kv => majorItemsNodup kv.2) = true := by decide

/-- A successful lookup produces an entry of the catalog list. -/
theorem lookupMajor_mem (majors : List (String × MajorInfo)) (major : String)
    (info : MajorInfo) (hm : lookupMajor majors major = some info) :
    ∃ kv ∈ majors, kv.2 = info ∧ kv.1 = major := by
  unfold lookupMajor at hm
  rcases hf : majors.find? (fun kv => kv.1 == major) with _ | kv
  · rw [hf] at hm; exact absurd hm (by simp)
  · rw [hf] at hm
    have hm' : kv.2 = info := by simpa using hm
    have hk := List.find?_some hf
    rw [beq_iff_eq] at hk
    exact ⟨kv, List.mem_of_find?_eq_some hf, hm', hk⟩

/-- Canonicality transported to any major found in the catalog. -/
theorem lookup_canonical (major : String) (info : MajorInfo)
    (hm : lookupMajor majors_data major = some info) :
    majorItemsCanonical info = true := by
  obtain ⟨kv, hmem, hkv, _⟩ := lookupMajor_mem majors_data major info hm
  have := (List.all_eq_true.mp majors_data_canonical) kv hmem
  rw [hkv] at this
  exact this

/-- Duplicate-freedom transported to any major found in the catalog. -/
theorem lookup_nodup (major : String) (info : MajorInfo)
    (hm : lookupMajor majors_data major = some info) :
    (((reqItems info).map (fun it => it.2.2)).Nodup) := by
  obtain ⟨kv, hmem, hkv, _⟩ := lookupMajor_mem majors_data major info hm
  have := (List.all_eq_true.mp majors_data_nodup) kv hmem
  rw [hkv] at this
  exact of_decide_eq_true this

/-! ### Claim C3 -/

/-- C3: for every course table, major catalog, major, graduation year,
preferences and graduation semester, every semester of the assembled plan
only received a course while its cumulative unit total was still strictly
below 16 — every proper initial segment of the placed-course
list of a semester sums to fewer than 16 units, so the course that reaches or crosses
16 is still placed and all later placements go to later semesters. -/
theorem assembler_semester_load (catalog : List Course)
    (majors : List (String × MajorInfo)) (major : String) (gy : Int)
    (prefs : Preferences) (gsem : String) (p : Plan)
    (hp : generate_basic_four_year_plan catalog majors major gy prefs gsem = some p) :
    semesterLoadOk p.semesters = true := by
  rcases hlk : lookupMajor majors major with _ | info
  · rw [generate_eq_none catalog majors major gy prefs gsem hlk] at hp
    exact absurd hp (by simp)
  · rw [generate_eq_some catalog majors major gy prefs gsem info hlk,
      Option.some.injEq] at hp
    subst hp
    exact semesterLoadOk_of_inv _
      (foldl_place_inv catalog prefs.completed_courses (reqItems info)
        (fun st it _ hP => loadInv_place catalog prefs.completed_courses st it hP)
        _ (loadInv_init _ _ _))

/-- Witness for C3: the Computer Science plan for Spring 2028 from 2024
with nothing completed satisfies the per-semester unit bound. -/
theorem assembler_semester_load_witness :
    semesterLoadOk
      ((generate_basic_four_year_plan sampleCourses majors_data "Computer Science" 2028
          ⟨[], some 2024⟩ "Spring").get (by decide)).semesters = true :=
  assembler_semester_load sampleCourses majors_data "Computer Science" 2028
    ⟨[], some 2024⟩ "Spring" _ (Option.some_get (by decide)).symm

/-! ### Claim C4 -/


/-- One placement step preserves the completed-courses exclusion, given a
canonical requirement identifier. -/
theorem noCompletedInv_place (catalog : List Course) (completed : List String)
    (st : List Semester × Nat) (it : String × String × String)
    (hcan : canonicalIdent it.2.2 = true)
    (hP : NoCompletedInv completed st) :
    NoCompletedInv completed (placeCourse catalog completed st it) := by
  rcases placeCourse_spec catalog completed st it with heq |
    ⟨h, s, n, rest, info, hc, hsp, hg, hsub, hnum, heq⟩
  · rw [heq]; exact hP
  · rw [heq]
    have hkey : ∀ sem ∈ st.1.set st.2 (addPlaced (st.1.get ⟨st.2, h⟩)
        ⟨info.subject, info.number, info.description, info.units, it.1, it.2.1⟩),
        ∀ c ∈ sem.courses, completed.contains (placedId c) = false := by
      intro sem hsem c hcrs
      rcases List.mem_or_eq_of_mem_set hsem with hold | hnew
      · exact hP sem hold c hcrs
      · subst hnew
        rcases List.mem_append.mp hcrs with holdc | hpcm
        · exact hP _ (List.get_mem _ _ _) c holdc
        · rw [List.mem_singleton] at hpcm
          subst hpcm
          have hid : placedId
              (⟨info.subject, info.number, info.description, info.units, it.1, it.2.1⟩ :
                PlacedCourse) = it.2.2 := by
            unfold canonicalIdent at hcan
            rw [hsp] at hcan
            rw [beq_iff_eq] at hcan
            rw [placedId]
            dsimp only
            rw [hsub, hnum]
            exact hcan
          rw [hid]
          exact hc
    split
    · exact hkey
    · exact hkey

/-- The Boolean form of the completed-courses exclusion. -/
theorem noCompletedPlaced_of_inv (completed : List String) (st : List Semester × Nat)
    (h : NoCompletedInv completed st) : noCompletedPlaced completed st.1 = true := by
  rw [noCompletedPlaced, List.all_eq_true]
  intro sem hsem
  rw [List.all_eq_true]
  intro c hcm
  rw [Bool.not_eq_true']
  exact h sem hsem c hcm

/-- C4: for every completed-course set, every major present in the major
catalog, and any course table, graduation year, current year and
graduation semester, no identifier of the completed set appears among the
placed courses of any semester of the assembled plan. -/
theorem assembler_excludes_completed (catalog : List Course) (major : String)
    (info : MajorInfo) (gy : Int) (prefs : Preferences) (gsem : String) (p : Plan)
    (hm : lookupMajor majors_data major = some info)
    (hp : generate_basic_four_year_plan catalog majors_data major gy prefs gsem = some p) :
    noCompletedPlaced prefs.completed_courses p.semesters = true := by
  have hcanon := lookup_canonical major info hm
  rw [majorItemsCanonical, List.all_eq_true] at hcanon
  rw [generate_eq_some catalog majors_data major gy prefs gsem info hm,
    Option.some.injEq] at hp
  subst hp
  refine noCompletedPlaced_of_inv prefs.completed_courses _
    (foldl_place_inv catalog prefs.completed_courses (reqItems info)
      (fun st it hit hP =>
        noCompletedInv_place catalog prefs.completed_courses st it (hcanon it hit) hP)
      _ ?_)
  intro sem hsem c hcrs
  rw [(buildSemesters_fresh _ _ _ sem hsem).1] at hcrs
  exact absurd hcrs (by simp)

/-- Witness for C4: with `COMPSCI 61A` and `MATH 1A` completed, the
Computer Science plan places neither. -/
theorem assembler_excludes_completed_witness :
    noCompletedPlaced ["COMPSCI 61A", "MATH 1A"]
      ((generate_basic_four_year_plan sampleCourses majors_data "Computer Science" 2028
          ⟨["COMPSCI 61A", "MATH 1A"], some 2024⟩ "Spring").get (by decide)).semesters
      = true :=
  assembler_excludes_completed sampleCourses "Computer Science"
    ((lookupMajor majors_data "Computer Science").get (by decide)) 2028
    ⟨["COMPSCI 61A", "MATH 1A"], some 2024⟩ "Spring" _
    (Option.some_get (by decide)).symm (Option.some_get (by decide)).symm

/-! ### Claim C5 -/

/-- Replacing one element shifts a mapped sum by the difference of the
images (stated additively to stay in `Nat`). -/
theorem sum_map_set {α : Type} (f : α → Nat) (l : List α) (i : Nat) (a : α)
    (h : i < l.length) :
    ((l.set i a).map f).sum + f (l.get ⟨i, h⟩) = (l.map f).sum + f a := by
  induction l generalizing i with
  | nil => simp at h
  | cons x t ih =>
    cases i with
    | zero =>
      simp only [List.set_cons_zero, List.map_cons, List.sum_cons, List.get]
      omega
    | succ j =>
      have hj : j < t.length := Nat.lt_of_succ_lt_succ h
      have := ih j hj
      simp only [List.set_cons_succ, List.map_cons, List.sum_cons, List.get]
      omega

/-- A placement step adds at most one occurrence of any identifier, and
only when the processed requirement identifier equals it. -/
theorem occ_place_le (catalog : List Course) (completed : List String)
    (st : List Semester × Nat) (it : String × String × String) (ident : String)
    (hcan : canonicalIdent it.2.2 = true) :
    placedOccurrences (placeCourse catalog completed st it).1 ident ≤
      placedOccurrences st.1 ident + (if it.2.2 == ident then 1 else 0) := by
  rcases placeCourse_spec catalog completed st it with heq |
    ⟨h, s, n, rest, info, hc, hsp, hg, hsub, hnum, heq⟩
  · rw [heq]; exact Nat.le_add_right _ _
  · rw [heq]
    have hid : placedId
        (⟨info.subject, info.number, info.description, info.units, it.1, it.2.1⟩ :
          PlacedCourse) = it.2.2 := by
      unfold canonicalIdent at hcan
      rw [hsp] at hcan
      rw [beq_iff_eq] at hcan
      rw [placedId]
      dsimp only
      rw [hsub, hnum]
      exact hcan
    have hsms := sum_map_set
      (fun sem => sem.courses.countP (fun c => placedId c == ident)) st.1 st.2
      (addPlaced (st.1.get ⟨st.2, h⟩)
        ⟨info.subject, info.number, info.description, info.units, it.1, it.2.1⟩) h
    have hcnt : (addPlaced (st.1.get ⟨st.2, h⟩)
          ⟨info.subject, info.number, info.description, info.units, it.1,
            it.2.1⟩).courses.countP (fun c => placedId c == ident)
        = (st.1.get ⟨st.2, h⟩).courses.countP (fun c => placedId c == ident)
          + (if it.2.2 == ident then 1 else 0) := by
      have haddC : (addPlaced (st.1.get ⟨st.2, h⟩)
          ⟨info.subject, info.number, info.description, info.units, it.1, it.2.1⟩).courses
          = (st.1.get ⟨st.2, h⟩).courses ++
            [⟨info.subject, info.number, info.description, info.units, it.1, it.2.1⟩] := rfl
      rw [haddC, List.countP_append]
      congr 1
      rw [List.countP_cons, List.countP_nil, hid]
      omega
    simp only [placedOccurrences] at hsms ⊢
    split
    · dsimp only
      omega
    · dsimp only
      omega

/-- Folding the placement over a list of canonical requirement items adds
at most as many occurrences of an identifier as the item list contains. -/
theorem occ_fold_le (catalog : List Course) (completed : List String) (ident : String) :
    ∀ (items : List (String × String × String)) (st : List Semester × Nat),
    (∀ it ∈ items, canonicalIdent it.2.2 = true) →
    placedOccurrences ((items.foldl (placeCourse catalog completed) st).1) ident ≤
      placedOccurrences st.1 ident + (items.map (fun it => it.2.2)).count ident := by
  intro items
  induction items with
  | nil => intro st _; simp
  | cons a l ih =>
    intro st hcan
    have h1 := occ_place_le catalog completed st a ident (hcan a (List.mem_cons_self _ _))
    have h2 := ih (placeCourse catalog completed st a)
      (fun it hit => hcan it (List.mem_cons_of_mem _ hit))
    rw [List.foldl_cons]
    rw [List.map_cons, List.count_cons]
    omega

/-- A semester sequence with no placed courses has no occurrences. -/
theorem occ_fresh (sems : List Semester) (ident : String)
    (h : ∀ sem ∈ sems, sem.courses = []) : placedOccurrences sems ident = 0 := by
  induction sems with
  | nil => rfl
  | cons sem t ih =>
    simp only [placedOccurrences, List.map_cons, List.sum_cons]
    rw [h sem (List.mem_cons_self _ _)]
    have := ih (fun s hs => h s (List.mem_cons_of_mem _ hs))
    simp only [placedOccurrences] at this
    simp [this]

/-- Each semester that contains an identifier contributes at least one
occurrence. -/
theorem semContaining_le_occ (sems : List Semester) (ident : String) :
    semestersContaining sems ident ≤ placedOccurrences sems ident := by
  induction sems with
  | nil => simp [semestersContaining, placedOccurrences]
  | cons sem t ih =>
    simp only [semestersContaining, placedOccurrences, List.countP_cons, List.map_cons,
      List.sum_cons] at ih ⊢
    by_cases hany : sem.courses.any (fun c => placedId c == ident) = true
    · have hpos : 0 < sem.courses.countP (fun c => placedId c == ident) :=
        List.countP_pos_iff.mpr (by
          obtain ⟨c, hcm, hcp⟩ := List.any_eq_true.mp hany
          exact ⟨c, hcm, hcp⟩)
      simp only [hany, if_true]
      omega
    · rw [Bool.not_eq_true] at hany
      simp only [hany, Bool.false_eq_true, if_false]
      omega

/-- C5: for every major present in the major catalog and every identifier
that appears somewhere in the assembled plan, the identifier occurs in
exactly one placed-course entry and in exactly one semester (no
duplication across semesters); in particular every requirement-group
identifier that exists in the course table, is not completed, and is
placed within the horizon appears exactly once. -/
theorem assembler_places_once (catalog : List Course) (major : String) (info : MajorInfo)
    (gy : Int) (prefs : Preferences) (gsem : String) (p : Plan) (ident : String)
    (hm : lookupMajor majors_data major = some info)
    (hp : generate_basic_four_year_plan catalog majors_data major gy prefs gsem = some p)
    (ha : semestersContaining p.semesters ident ≠ 0) :
    placedOccurrences p.semesters ident = 1 ∧
      semestersContaining p.semesters ident = 1 := by
  have hcanon := lookup_canonical major info hm
  rw [majorItemsCanonical, List.all_eq_true] at hcanon
  have hnd := lookup_nodup major info hm
  have hcnt : ((reqItems info).map (fun it => it.2.2)).count ident ≤ 1 :=
    List.nodup_iff_count_le_one.mp hnd ident
  rw [generate_eq_some catalog majors_data major gy prefs gsem info hm,
    Option.some.injEq] at hp
  subst hp
  dsimp only at ha ⊢
  have hocc := occ_fold_le catalog prefs.completed_courses ident (reqItems info)
    (buildSemesters (prefs.current_year.getD (gy - 4)) gy gsem, 0) hcanon
  have h0 : placedOccurrences
      (buildSemesters (prefs.current_year.getD (gy - 4)) gy gsem) ident = 0 :=
    occ_fresh _ _ (fun sem hs => (buildSemesters_fresh _ _ _ sem hs).1)
  have hle := semContaining_le_occ
    (((reqItems info).foldl (placeCourse catalog prefs.completed_courses)
      (buildSemesters (prefs.current_year.getD (gy - 4)) gy gsem, 0)).1) ident
  dsimp only at hocc
  omega

/-- Witness for C5: `COMPSCI 61A` appears in exactly one semester of the
Computer Science plan. -/
theorem assembler_places_once_witness :
    placedOccurrences
        ((generate_basic_four_year_plan sampleCourses majors_data "Computer Science" 2028
            ⟨[], some 2024⟩ "Spring").get (by decide)).semesters "COMPSCI 61A" = 1 ∧
      semestersContaining
        ((generate_basic_four_year_plan sampleCourses majors_data "Computer Science" 2028
            ⟨[], some 2024⟩ "Spring").get (by decide)).semesters "COMPSCI 61A" = 1 :=
  assembler_places_once sampleCourses "Computer Science"
    ((lookupMajor majors_data "Computer Science").get (by decide)) 2028
    ⟨[], some 2024⟩ "Spring" _ "COMPSCI 61A"
    (Option.some_get (by decide)).symm (Option.some_get (by decide)).symm (by decide)

/-! ### The semester sequence (claims C1 and C10) -/

theorem termLoop_ne (y gy : Int) (gsem : String) (hne : y ≠ gy) :
    termLoop y gy gsem ["Fall", "Spring"] = [mkSem y "Fall", mkSem y "Spring"] := by
  have hb : (y == gy) = false := by simpa using hne
  simp [termLoop, hb]

/-- In the graduation year, both the `"Fall"` and the `"Spring"` request
truncate the sequence after the Fall entry. -/
theorem termLoop_grad (gy : Int) (gsem : String)
    (hsem : gsem = "Fall" ∨ gsem = "Spring") :
    termLoop gy gy gsem ["Fall", "Spring"] = [mkSem gy "Fall"] := by
  rcases hsem with h | h <;> subst h <;> simp [termLoop]

/-- For any other graduation-semester string neither truncation branch
fires, in any year. -/
theorem termLoop_other (y gy : Int) (gsem : String)
    (h1 : gsem ≠ "Fall") (h2 : gsem ≠ "Spring") :
    termLoop y gy gsem ["Fall", "Spring"] = [mkSem y "Fall", mkSem y "Spring"] := by
  have hb1 : (gsem == "Fall") = false := by simpa using h1
  have hb2 : (gsem == "Spring") = false := by simpa using h2
  by_cases hy : (y == gy) = true <;> simp [termLoop, hy, hb1, hb2]

theorem intRange_mem (a b y : Int) (hy : y ∈ intRange a b) : a ≤ y ∧ y < b := by
  unfold intRange at hy
  rcases List.mem_map.mp hy with ⟨i, hi, rfl⟩
  rw [List.mem_range] at hi
  omega

theorem mem_intRange (a b y : Int) (h1 : a ≤ y) (h2 : y < b) : y ∈ intRange a b := by
  have hlt : (y - a).toNat < (b - a).toNat := by omega
  have heq : a + (((y - a).toNat : Nat) : Int) = y := by omega
  unfold intRange
  exact List.mem_map.mpr ⟨(y - a).toNat, List.mem_range.mpr hlt, heq⟩

theorem intRange_split (a b : Int) (hab : a ≤ b) :
    intRange a (b + 1) = intRange a b ++ [b] := by
  unfold intRange
  have h1 : (b + 1 - a).toNat = (b - a).toNat + 1 := by omega
  rw [h1, List.range_succ, List.map_append]
  congr 1
  simp only [List.map_cons, List.map_nil]
  congr 2
  omega

theorem flatMap_congr {α β : Type} (l : List α) (f g : α → List β)
    (h : ∀ a ∈ l, f a = g a) : l.flatMap f = l.flatMap g := by
  induction l with
  | nil => rfl
  | cons x t ih =>
    rw [List.flatMap_cons, List.flatMap_cons, h x (List.mem_cons_self _ _),
      ih (fun a ha => h a (List.mem_cons_of_mem _ ha))]

/-- For a `"Fall"` or `"Spring"` graduation semester, the built sequence
is Fall/Spring for every year before graduation, then a single final Fall
entry of the graduation year. -/
theorem buildSemesters_shape (cy gy : Int) (gsem : String)
    (hsem : gsem = "Fall" ∨ gsem = "Spring") (hcy : cy ≤ gy) :
    buildSemesters cy gy gsem =
      (intRange cy gy).flatMap (fun y => [mkSem y "Fall", mkSem y "Spring"])
        ++ [mkSem gy "Fall"] := by
  unfold buildSemesters
  rw [intRange_split cy gy hcy, List.flatMap_append]
  congr 1
  · exact flatMap_congr _ _ _ (fun y hy =>
      termLoop_ne y gy gsem (by have := intRange_mem cy gy y hy; omega))
  · rw [List.flatMap_cons, List.flatMap_nil, List.append_nil,
      termLoop_grad gy gsem hsem]

/-- For any other graduation-semester string the sequence covers
Fall and Spring of every year up to and including the graduation year. -/
theorem buildSemesters_other (cy gy : Int) (gsem : String)
    (h1 : gsem ≠ "Fall") (h2 : gsem ≠ "Spring") :
    buildSemesters cy gy gsem =
      (intRange cy (gy + 1)).flatMap (fun y => [mkSem y "Fall", mkSem y "Spring"]) := by
  unfold buildSemesters
  exact flatMap_congr _ _ _ (fun y _ => termLoop_other y gy gsem h1 h2)

/-- The placement fold never changes the (year, term) projection. -/
theorem foldl_place_proj (catalog : List Course) (completed : List String) :
    ∀ (items : List (String × String × String)) (st : List Semester × Nat),
    ((items.foldl (placeCourse catalog completed) st).1).map semProj
      = st.1.map semProj := by
  intro items
  induction items with
  | nil => intro st; rfl
  | cons a l ih =>
    intro st
    rw [List.foldl_cons, ih, placeCourse_proj]

/-- C1 (amended): for every major in the catalog, graduation semester
`"Fall"` or `"Spring"`, and current year not after the graduation year,
the semester sequence of the plan alternates Fall then Spring for every year
from the current year up to the year before graduation, and ends with the
single Fall entry of the graduation year — so the year of the last entry is
the graduation year but its term is `"Fall"` even when `"Spring"` was
requested (the requested Spring entry is omitted). -/
theorem assembler_semester_sequence (catalog : List Course)
    (majors : List (String × MajorInfo)) (major : String) (info : MajorInfo)
    (gy cy : Int) (gsem : String) (completed : List String) (p : Plan)
    (hm : lookupMajor majors major = some info)
    (hsem : gsem = "Fall" ∨ gsem = "Spring") (hcy : cy ≤ gy)
    (hp : generate_basic_four_year_plan catalog majors major gy
        ⟨completed, some cy⟩ gsem = some p) :
    p.semesters.map semProj =
      ((intRange cy gy).flatMap (fun y => [(y, "Fall"), (y, "Spring")]))
        ++ [((gy : Int), ("Fall" : String))] := by
  rw [generate_eq_some catalog majors major gy ⟨completed, some cy⟩ gsem info hm,
    Option.some.injEq] at hp
  subst hp
  dsimp only
  rw [foldl_place_proj]
  dsimp only
  rw [Option.getD_some, buildSemesters_shape cy gy gsem hsem hcy, List.map_append,
    List.map_flatMap]
  rfl

/-- C1 counterexample: for the Spring 2028 request the last semester entry
of the Computer Science plan is the Fall of 2028, not the requested Spring
— the claim that the term of the last entry equals the requested graduation
semester fails at this input. -/
theorem assembler_semester_sequence_counterexample :
    ((generate_basic_four_year_plan sampleCourses majors_data "Computer Science" 2028
        ⟨[], some 2024⟩ "Spring").map
      (fun p => (p.semesters.getLast?).map (fun s => s.term)))
      = some (some "Fall") ∧
    ((generate_basic_four_year_plan sampleCourses majors_data "Computer Science" 2028
        ⟨[], some 2024⟩ "Spring").map
      (fun p => (p.semesters.getLast?).map (fun s => s.term)))
      ≠ some (some "Spring") := by
  constructor
  · decide
  · decide

/-- Witness for C1 (amended): the Fall 2028 Computer Science plan from
2024 has the predicted semester sequence. -/
theorem assembler_semester_sequence_witness :
    ((generate_basic_four_year_plan sampleCourses majors_data "Computer Science" 2028
        ⟨[], some 2024⟩ "Fall").get (by decide)).semesters.map semProj =
      ((intRange 2024 2028).flatMap (fun y => [(y, "Fall"), (y, "Spring")]))
        ++ [((2028 : Int), ("Fall" : String))] :=
  assembler_semester_sequence sampleCourses majors_data "Computer Science"
    ((lookupMajor majors_data "Computer Science").get (by decide)) 2028 2024 "Fall" [] _
    (Option.some_get (by decide)).symm (Or.inl rfl) (by decide)
    (Option.some_get (by decide)).symm

/-- C10: for a graduation-semester string other than `"Fall"` and
`"Spring"` (e.g. `"Summer"`), the assembler still returns a plan, and its
semester sequence contains both the Fall and the Spring entry of the
graduation year — neither truncation branch fires. -/
theorem assembler_nonstandard_semester (catalog : List Course)
    (majors : List (String × MajorInfo)) (major : String) (info : MajorInfo)
    (gy cy : Int) (gsem : String) (completed : List String)
    (hm : lookupMajor majors major = some info)
    (h1 : gsem ≠ "Fall") (h2 : gsem ≠ "Spring") (hcy : cy ≤ gy) :
    (generate_basic_four_year_plan catalog majors major gy
        ⟨completed, some cy⟩ gsem).map
      (fun p => decide ((gy, "Fall") ∈ p.semesters.map semProj) &&
                decide ((gy, "Spring") ∈ p.semesters.map semProj))
      = some true := by
  rw [generate_eq_some catalog majors major gy ⟨completed, some cy⟩ gsem info hm]
  show some _ = some true
  congr 1
  rw [Bool.and_eq_true, decide_eq_true_eq, decide_eq_true_eq]
  have hproj : (((reqItems info).foldl (placeCourse catalog completed)
      (buildSemesters cy gy gsem, 0)).1).map semProj
      = (intRange cy (gy + 1)).flatMap (fun y => [(y, "Fall"), (y, "Spring")]) := by
    rw [foldl_place_proj]
    dsimp only
    rw [buildSemesters_other cy gy gsem h1 h2, List.map_flatMap]
    rfl
  have hmem : gy ∈ intRange cy (gy + 1) := mem_intRange cy (gy + 1) gy hcy (by omega)
  constructor
  · dsimp only
    rw [Option.getD_some, hproj]
    exact List.mem_flatMap.mpr ⟨gy, hmem, by simp⟩
  · dsimp only
    rw [Option.getD_some, hproj]
    exact List.mem_flatMap.mpr ⟨gy, hmem, by simp⟩

/-- Witness for C10: the `"Summer"` request for Computer Science keeps
both 2028 semesters. -/
theorem assembler_nonstandard_semester_witness :
    (generate_basic_four_year_plan sampleCourses majors_data "Computer Science" 2028
        ⟨[], some 2024⟩ "Summer").map
      (fun p => decide (((2028 : Int), "Fall") ∈ p.semesters.map semProj) &&
                decide (((2028 : Int), "Spring") ∈ p.semesters.map semProj))
      = some true :=
  assembler_nonstandard_semester sampleCourses majors_data "Computer Science"
    ((lookupMajor majors_data "Computer Science").get (by decide)) 2028 2024 "Summer" []
    (Option.some_get (by decide)).symm (by decide) (by decide) (by decide)

/-! ### Claim C2 -/

/-- C2 (amended): whenever the extracted text of a model reply fails the
brace slicing, fails to parse, or parses without both required keys
`major` and `semesters`, schedule parsing returns the internal
fallback skeleton of the RAG layer `_fallback_schedule(major, graduation_year,
graduation_semester)` — never an error (but not the deterministic
plan of the deterministic assembler). -/
theorem parse_failure_falls_back (majors : List (String × MajorInfo))
    (jsonParse : String → Option JsonObj) (response major : String) (gy : Int)
    (gsem : String)
    (h : ∀ obj, (extractJson response).bind jsonParse = some obj →
      obj.keys.contains "major" = false ∨ obj.keys.contains "semesters" = false) :
    parse_schedule_response majors jsonParse response major gy gsem =
      ScheduleResult.fallback (fallback_schedule majors major gy gsem) := by
  unfold parse_schedule_response
  rcases hext : extractJson response with _ | js
  · rfl
  · dsimp only
    rcases hparse : jsonParse js with _ | obj
    · rfl
    · dsimp only
      have hobj := h obj (by rw [hext]; show jsonParse js = some obj; exact hparse)
      rcases hM : obj.keys.contains "major" with _ | _
      · simp
      · rcases hS : obj.keys.contains "semesters" with _ | _
        · simp
        · rcases hobj with hbad | hbad
          · rw [hM] at hbad; exact absurd hbad (by simp)
          · rw [hS] at hbad; exact absurd hbad (by simp)

/-- Witness for C2 (amended): an unparseable reply yields the internal
fallback schedule. -/
theorem parse_failure_falls_back_witness :
    parse_schedule_response majors_data (fun _ => none)
        "The model did not return JSON." "Computer Science" 2028 "Spring"
      = ScheduleResult.fallback
          (fallback_schedule majors_data "Computer Science" 2028 "Spring") :=
  parse_failure_falls_back majors_data (fun _ => none)
    "The model did not return JSON." "Computer Science" 2028 "Spring"
    (by
      intro obj hobj
      have hext : extractJson "The model did not return JSON." = none := by decide
      rw [hext] at hobj
      exact absurd hobj (by simp))

/-- C2 counterexample: on an unparseable reply the parsing result is the
internal fallback skeleton of the RAG layer, whose semester list has 8 empty
semesters (2024 Fall through 2027 Spring), while the deterministic
plan of the deterministic assembler for the same major, graduation year and graduation
semester has 9 semesters with placed courses — the claim that the
fallback equals the output of the deterministic assembler (section 4.3) fails at
this input. -/
theorem parse_failure_counterexample :
    parse_schedule_response majors_data (fun _ => none)
        "The model did not return JSON." "Computer Science" 2028 "Spring"
      = ScheduleResult.fallback
          (fallback_schedule majors_data "Computer Science" 2028 "Spring") ∧
    (fallback_schedule majors_data "Computer Science" 2028 "Spring").semesters.length
      = 8 ∧
    (generate_basic_four_year_plan sampleCourses majors_data "Computer Science" 2028
        ⟨[], none⟩ "Spring").map (fun p => p.semesters.length) = some 9 ∧
    (generate_basic_four_year_plan sampleCourses majors_data "Computer Science" 2028
        ⟨[], none⟩ "Spring").map (fun p => p.semesters)
      ≠ some (fallback_schedule majors_data "Computer Science" 2028 "Spring").semesters
    := by
  refine ⟨by decide, by decide, by decide, by decide⟩

/-! ### Claim C6 -/

/-- C6: for every major name absent from the major catalog (and any
course table, graduation year, preferences and graduation semester), the
assembler returns not-found (`none`). -/
theorem missing_major_not_found (catalog : List Course)
    (majors : List (String × MajorInfo)) (major : String) (gy : Int)
    (prefs : Preferences) (gsem : String)
    (hm : lookupMajor majors major = none) :
    generate_basic_four_year_plan catalog majors major gy prefs gsem = none := by
  unfold generate_basic_four_year_plan
  rw [hm]

/-- Witness for C6: `assemble("NonexistentMajor", 2028, "Spring", 2024,
[])` returns not-found. -/
theorem missing_major_not_found_witness :
    lookupMajor majors_data "NonexistentMajor" = none ∧
    generate_basic_four_year_plan sampleCourses majors_data "NonexistentMajor" 2028
        ⟨[], some 2024⟩ "Spring" = none :=
  ⟨by decide,
    missing_major_not_found sampleCourses majors_data "NonexistentMajor" 2028
      ⟨[], some 2024⟩ "Spring" (by decide)⟩

/-! ### Claim C7 -/


/-- C7: against the fallback sample course catalog,
`assemble("Computer Science", 2028, "Spring", 2024, [])` returns a plan
whose first semester includes `COMPSCI 61A` and `COMPSCI 61B` and no
upper-division course, and all lower-division placements happen before
any upper-division placement. -/
theorem cs_plan_first_semester : csPlanCheck = true := by decide

/-! ### Claim C8 -/

/-- Key-preserving value replacement commutes with lookup of a different
key. -/
theorem lookupMajor_map_set (ms : List (String × MajorInfo)) (name n : String)
    (info : MajorInfo) (hne : n ≠ name) :
    lookupMajor (ms.map (fun kv => if kv.1 == name then (kv.1, info) else kv)) n
      = lookupMajor ms n := by
  induction ms with
  | nil => rfl
  | cons kv t ih =>
    unfold lookupMajor at ih ⊢
    rw [List.map_cons]
    by_cases hk : (kv.1 == name) = true
    · rw [if_pos hk]
      rw [beq_iff_eq] at hk
      have h2 : (kv.1 == n) = false := by
        rw [beq_eq_false_iff_ne, hk]
        exact fun hcontra => hne hcontra.symm
      simp only [List.find?]
      rw [h2]
      exact ih
    · rw [if_neg hk]
      simp only [List.find?]
      by_cases hq : (kv.1 == n) = true
      · rw [hq]
      · rw [Bool.not_eq_true] at hq
        rw [hq]
        exact ih

/-- Overlaying one major leaves lookups of other names unchanged. -/
theorem lookup_setMajor_ne (ms : List (String × MajorInfo)) (name : String)
    (info : MajorInfo) (n : String) (hne : n ≠ name) :
    lookupMajor (setMajor ms name info) n = lookupMajor ms n := by
  unfold setMajor
  split
  · exact lookupMajor_map_set ms name n info hne
  · rfl

/-- A successful lookup in the skeleton table yields the generic
skeleton. -/
theorem lookup_base_generic (name : String) (info : MajorInfo)
    (h : lookupMajor baseMajors name = some info) : info = genericMajor name := by
  obtain ⟨kv, hmem, hkv2, hkv1⟩ := lookupMajor_mem baseMajors name info h
  rcases List.mem_map.mp hmem with ⟨m, _, hfm⟩
  rw [← hfm] at hkv1 hkv2
  dsimp only at hkv1 hkv2
  rw [← hkv2, hkv1]

/-- C8: every major in the catalog that is not one of the three
hand-curated overlays has exactly one upper-division requirement group,
whose two course identifiers are the major name upper-cased with spaces
removed and truncated to 8 characters, followed by the suffixes `100` and
`101`. -/
theorem generic_skeleton_upper_division (name : String) (info : MajorInfo)
    (hm : lookupMajor majors_data name = some info)
    (h1 : name ≠ "Computer Science") (h2 : name ≠ "Data Science")
    (h3 : name ≠ "Electrical and Computer Engineering") :
    info.upper_division.map (fun g => g.courses)
      = [[synthStem name ++ " 100", synthStem name ++ " 101"]] := by
  unfold majors_data at hm
  rw [lookup_setMajor_ne _ _ _ _ h3, lookup_setMajor_ne _ _ _ _ h2,
    lookup_setMajor_ne _ _ _ _ h1] at hm
  rw [lookup_base_generic name info hm]
  rfl

/-- Witness for C8: the single upper-division group of the "Mathematics" entry
lists `MATHEMAT 100` and `MATHEMAT 101`. -/
theorem generic_skeleton_upper_division_witness :
    ((lookupMajor majors_data "Mathematics").get (by decide)).upper_division.map
        (fun g => g.courses)
      = [[synthStem "Mathematics" ++ " 100", synthStem "Mathematics" ++ " 101"]] ∧
    synthStem "Mathematics" ++ " 100" = "MATHEMAT 100" ∧
    synthStem "Mathematics" ++ " 101" = "MATHEMAT 101" :=
  ⟨generic_skeleton_upper_division "Mathematics" _
      (Option.some_get (by decide)).symm (by decide) (by decide) (by decide),
    by decide, by decide⟩

/-! ### Claim C9 -/

/-- C9: the assembler is a pure function — two calls with identical
argument tuples against the same course table and major catalog return
identical plans. -/
theorem assembler_deterministic (catalog : List Course)
    (majors : List (String × MajorInfo)) (m1 m2 : String) (g1 g2 : Int)
    (p1 p2 : Preferences) (s1 s2 : String)
    (h : (m1, g1, p1, s1) = (m2, g2, p2, s2)) :
    generate_basic_four_year_plan catalog majors m1 g1 p1 s1 =
      generate_basic_four_year_plan catalog majors m2 g2 p2 s2 := by
  simp only [Prod.mk.injEq] at h
  obtain ⟨h1, h2, h3, h4⟩ := h
  subst h1; subst h2; subst h3; subst h4
  rfl

/-- Witness for C9: two identical Computer Science requests agree. -/
theorem assembler_deterministic_witness :
    (("Computer Science", (2028 : Int), (⟨[], some 2024⟩ : Preferences), "Spring")
        = ("Computer Science", (2028 : Int), (⟨[], some 2024⟩ : Preferences), "Spring"))
      ∧
    generate_basic_four_year_plan sampleCourses majors_data "Computer Science" 2028
        ⟨[], some 2024⟩ "Spring"
      = generate_basic_four_year_plan sampleCourses majors_data "Computer Science" 2028
          ⟨[], some 2024⟩ "Spring" :=
  ⟨rfl,
    assembler_deterministic sampleCourses majors_data "Computer Science"
      "Computer Science" 2028 2028 ⟨[], some 2024⟩ ⟨[], some 2024⟩ "Spring" "Spring"
      rfl⟩

end HousingPredictor
